import Mathlib

/-!
Verification of the aPaaS OpenAPI client (`src/index.ts`).

The definitions below are a shallow embedding of the client's token
manager, chunking/pagination iterators and per-operation control flow.
Network interaction is modelled by passing the would-be server response
(or a response function indexed by call number) as an explicit argument;
JavaScript `null`/`undefined` and falsiness are modelled with `Option`
and explicit falsiness predicates; a thrown exception is an
`Except.error` carrying the message.
-/

/-- JavaScript falsiness of a `string | null | undefined` value:
`null`/`undefined` and the empty string are falsy. -/
def jsStrFalsy : Option String → Bool
  | none => true
  | some s => s == ""

/-- JavaScript falsiness of a `number | null | undefined` value:
`null`/`undefined` and `0` are falsy. -/
def jsIntFalsy : Option Int → Bool
  | none => true
  | some n => n == 0

/-- The mutable fields of `class Client` that the modelled logic reads or
writes (`clientId`, `clientSecret`, `namespace`, `disableTokenCache`,
`accessToken`, `expireTime`). -/
structure ClientState where
  clientId : String
  clientSecret : String
  nameSpace : String
  disableTokenCache : Bool
  accessToken : Option String
  expireTime : Option Int
  deriving DecidableEq, Repr

/-- Payload of the token endpoint response (`TokenResponse.data`). -/
structure TokenData where
  accessToken : String
  expireTime : Int
  deriving DecidableEq, Repr

/-- Body returned by `POST /auth/v1/appToken` (interface `TokenResponse`). -/
structure TokenResponse where
  code : String
  data : TokenData
  msg : String
  deriving DecidableEq, Repr

/-- `getAccessToken` (src/index.ts:95-110): the auth response is passed in
explicitly; a non-`"0"` code throws (modelled as `Except.error` with the
thrown message) and leaves the state untouched, otherwise both cached
fields are overwritten. -/
def getAccessToken (s : ClientState) (resp : TokenResponse) :
    Except String Unit × ClientState :=
  if resp.code ≠ "0" then
    (Except.error ("获取 accessToken 失败: " ++ resp.msg), s)
  else
    (Except.ok (),
     { s with accessToken := some resp.data.accessToken,
              expireTime := some resp.data.expireTime })

/-- `ensureTokenValid` (src/index.ts:115-133). The first component counts
how many credential exchanges (calls of `getAccessToken`) were issued. -/
def ensureTokenValid (s : ClientState) (now : Int) (resp : TokenResponse) :
    Nat × Except String Unit × ClientState :=
  if s.disableTokenCache then
    let r := getAccessToken s resp
    (1, r.1, r.2)
  else if jsStrFalsy s.accessToken || jsIntFalsy s.expireTime then
    let r := getAccessToken s resp
    (1, r.1, r.2)
  else if now + 60 * 1000 > s.expireTime.getD 0 then
    let r := getAccessToken s resp
    (1, r.1, r.2)
  else
    (0, Except.ok (), s)

/-- A sequence of `ensureTokenValid` calls (one per client operation), each
with its wall-clock time and the auth response the server would give;
returns the total number of credential exchanges and the final state. -/
def runEnsureSeq (s : ClientState) (calls : List (Int × TokenResponse)) :
    Nat × ClientState :=
  calls.foldl
    (fun acc c =>
      let r := ensureTokenValid acc.2 c.1 c.2
      (acc.1 + r.1, r.2.2))
    (0, s)

/-- The `tokenExpireTime` getter (src/index.ts:146-164): `none` models the
returned `null`; otherwise the value is in whole seconds. -/
def tokenExpireTime (s : ClientState) (now : Int) : Option Int :=
  if jsStrFalsy s.accessToken || jsIntFalsy s.expireTime then
    none
  else if s.expireTime.getD 0 - now ≤ 0 then
    some 0
  else
    some ((s.expireTime.getD 0 - now) / 1000)

/-- The chunking loop shared by the batch iterators
(src/index.ts:428-431, 520-524, 618-622, 707-711):
`for (let i = 0; i < xs.length; i += 100) chunks.push(xs.slice(i, i + 100))`,
written index-first; iteration `k` pushes `xs.slice(100*k, 100*k + 100)`. -/
def chunkList {α : Type} (xs : List α) : List (List α) :=
  (List.range ((xs.length + 99) / 100)).map
    (fun k => (xs.drop (100 * k)).take 100)

/-- Sequential chunk loop of `object.update.recordsWithIterator` and
`object.delete.recordsWithIterator` (src/index.ts:528-543, 626-644): each
chunk is dispatched (recorded in the first component) and its response
`res` pushed onto `results`; a failing chunk aborts the remaining ones.
`server` maps the call number and the dispatched chunk to the outcome. -/
def runChunkCalls {α R : Type} (server : Nat → List α → Except String R) :
    Nat → List (List α) → List R → List (List α) →
    List (List α) × Except String (List R)
  | _, [], acc, log => (log, Except.ok acc)
  | i, c :: cs, acc, log =>
    match server i c with
    | Except.error e => (log ++ [c], Except.error e)
    | Except.ok r => runChunkCalls server (i + 1) cs (acc ++ [r]) (log ++ [c])

/-- `object.update.recordsWithIterator` (src/index.ts:516-546): chunks the
input, dispatches the chunks sequentially, returns one raw response per
chunk. First component: the chunks actually dispatched, in order. -/
def updateRecordsWithIterator {α R : Type}
    (server : Nat → List α → Except String R) (records : List α) :
    List (List α) × Except String (List R) :=
  runChunkCalls server 0 (chunkList records) [] []

/-- `object.delete.recordsWithIterator` (src/index.ts:614-647): same loop
as the update iterator, over the list of ids. -/
def deleteRecordsWithIterator {α R : Type}
    (server : Nat → List α → Except String R) (ids : List α) :
    List (List α) × Except String (List R) :=
  runChunkCalls server 0 (chunkList ids) [] []

/-- The JavaScript value found at `res.data.items` in a batch-create
response: an array, some other non-nullish value (fails the
`Array.isArray` guard but supports property access, e.g. an object or a
string), or `null`/`undefined`. -/
inductive JsItems (R : Type) where
  | arr (xs : List R)
  | nonArr
  | nullish
  deriving DecidableEq, Repr

/-- `res.data` of a batch-create response. -/
structure CreateData (R : Type) where
  items : JsItems R
  deriving DecidableEq, Repr

/-- Envelope returned by `object.create.records` (its `res`); `data` is
absent when the body has no `data` field. -/
structure CreateResp (R : Type) where
  data : Option (CreateData R)
  deriving DecidableEq, Repr

/-- The items an `items` value contributes to the aggregated result: the
array itself when it is an array, nothing otherwise. -/
def arrItems {R : Type} : JsItems R → List R
  | JsItems.arr xs => xs
  | _ => []

/-- Message of the `TypeError` thrown by the unguarded property access
`res.data.items.length` (src/index.ts:450) when `res.data` or
`res.data.items` is nullish. -/
def jsLengthTypeError : String :=
  "TypeError: cannot read properties of undefined (reading length)"

/-- Chunk loop of `object.create.recordsWithIterator`
(src/index.ts:435-456): items are concatenated only when
`res.data && Array.isArray(res.data.items)` holds, but the log line
`res.data.items.length` is evaluated unconditionally and throws when
`res.data` or `res.data.items` is nullish. -/
def createGo {α R : Type}
    (server : Nat → List α → Except String (CreateResp R)) :
    Nat → List (List α) → List R → List (List α) →
    List (List α) × Except String (List R)
  | _, [], acc, log => (log, Except.ok acc)
  | i, c :: cs, acc, log =>
    match server i c with
    | Except.error e => (log ++ [c], Except.error e)
    | Except.ok resp =>
      let acc2 :=
        match resp.data with
        | some d =>
          match d.items with
          | JsItems.arr xs => acc ++ xs
          | _ => acc
        | none => acc
      match resp.data with
      | none => (log ++ [c], Except.error jsLengthTypeError)
      | some d =>
        match d.items with
        | JsItems.nullish => (log ++ [c], Except.error jsLengthTypeError)
        | _ => createGo server (i + 1) cs acc2 (log ++ [c])

/-- `object.create.recordsWithIterator` (src/index.ts:420-459): `total` is
fixed to `records.length` up front; on success the result is
`{ total, items }`. First component: the chunks actually dispatched. -/
def createRecordsWithIterator {α R : Type}
    (server : Nat → List α → Except String (CreateResp R))
    (records : List α) :
    List (List α) × Except String (Nat × List R) :=
  match createGo server 0 (chunkList records) [] [] with
  | (log, Except.ok items) => (log, Except.ok (records.length, items))
  | (log, Except.error e) => (log, Except.error e)

/-- Envelope returned by the department-exchange endpoint (`response.data`
in the source): `data` is the array of department mappings, absent when
the body has no `data` field. -/
structure DeptResp (D : Type) where
  data : Option (List D)
  deriving DecidableEq, Repr

/-- `department.exchange` (src/index.ts:660-691): returns
`response.data.data[0]`; indexing an absent array throws. `Except.ok none`
models returning JavaScript `undefined`. -/
def departmentExchange {D : Type} (resp : DeptResp D) :
    Except String (Option D) :=
  match resp.data with
  | none => Except.error "TypeError: cannot read properties of undefined (reading 0)"
  | some l => Except.ok l.head?

/-- Chunk loop of `department.batchExchange` (src/index.ts:707-739):
each chunk's `response.data.data` is spread into `results`; spreading an
absent array throws. -/
def departmentBatchGo {D : Type}
    (server : Nat → List String → Except String (DeptResp D)) :
    Nat → List (List String) → List D → List (List String) →
    List (List String) × Except String (List D)
  | _, [], acc, log => (log, Except.ok acc)
  | i, c :: cs, acc, log =>
    match server i c with
    | Except.error e => (log ++ [c], Except.error e)
    | Except.ok resp =>
      match resp.data with
      | none => (log ++ [c], Except.error "TypeError: spread of undefined")
      | some l => departmentBatchGo server (i + 1) cs (acc ++ l) (log ++ [c])

/-- `department.batchExchange` (src/index.ts:698-742). -/
def departmentBatchExchange {D : Type}
    (server : Nat → List String → Except String (DeptResp D))
    (department_ids : List String) :
    List (List String) × Except String (List D) :=
  departmentBatchGo server 0 (chunkList department_ids) [] []

/-- `res.data` of one `records_query` page: `items` is `some` when the
body's `items` is an array (the `Array.isArray` guard), `total` and
`next_page_token` are absent when the body omits them. -/
structure PageData (R : Type) where
  items : Option (List R)
  total : Option Nat
  next_page_token : Option String
  deriving DecidableEq, Repr

/-- Envelope returned by `object.search.records` for one page. -/
structure PageResp (R : Type) where
  data : Option (PageData R)
  deriving DecidableEq, Repr

/-- The `do … while (nextPageToken)` loop of
`object.search.recordsWithIterator` (src/index.ts:304-351), one scripted
server response per fetch. Arguments after the script: the `page_token`
about to be sent, the pages fetched so far, the running `total`, the
accumulator and the log of `page_token` values sent. The result is
`(total, items, request log)`; running past the script's end means the
loop still wanted a page (the scripted server cannot terminate it). -/
def searchGo {R : Type} :
    List (PageResp R) → String → Nat → Nat → List R → List String →
    Except String (Nat × List R × List String)
  | [], _, _, _, _, _ => Except.error "unscripted fetch: loop did not terminate"
  | p :: rest, tok, page, total, acc, log =>
    match p.data with
    | none => Except.error "TypeError: cannot read properties of undefined"
    | some d =>
      let acc2 :=
        match d.items with
        | some xs => acc ++ xs
        | none => acc
      let total2 := if page + 1 = 1 then d.total.getD 0 else total
      let nt := d.next_page_token.getD ""
      if nt == "" then
        Except.ok (total2, acc2, log ++ [tok])
      else
        searchGo rest nt (page + 1) total2 acc2 (log ++ [tok])

/-- `object.search.recordsWithIterator` (src/index.ts:304-351): starts with
an empty accumulator, empty-string page token, `total = 0`, `page = 0`. -/
def searchRecordsWithIterator {R : Type} (pages : List (PageResp R)) :
    Except String (Nat × List R × List String) :=
  searchGo pages "" 0 0 [] []

/-- Abstract control flow of one client operation, as written in the
source: an HTTP request to an endpoint, a call of `ensureTokenValid`, a
block passed to `functionLimiter`, sequencing, or nothing. -/
inductive Prog where
  | skip
  | http (endpoint : String)
  | ensure
  | limited (body : Prog)
  | seq (a b : Prog)
  deriving DecidableEq, Repr

/-- Walks a program left to right carrying whether `ensureTokenValid` has
already run; returns (every HTTP request was preceded by a token check,
token checked after the program). -/
def guardedFrom : Bool → Prog → Bool × Bool
  | t, Prog.skip => (true, t)
  | t, Prog.http _ => (t, t)
  | _, Prog.ensure => (true, true)
  | t, Prog.limited body => guardedFrom t body
  | t, Prog.seq a b =>
    let ra := guardedFrom t a
    let rb := guardedFrom ra.2 b
    (ra.1 && rb.1, rb.2)

/-- Every HTTP request of the operation is preceded by a token-validity
check, starting from an unchecked token. -/
def allHttpChecked (p : Prog) : Bool :=
  (guardedFrom false p).1

/-- Every HTTP request occurs inside a block dispatched through
`functionLimiter`; the flag says whether we are already inside one. -/
def allHttpLimited : Bool → Prog → Bool
  | _, Prog.skip => true
  | inL, Prog.http _ => inL
  | _, Prog.ensure => true
  | _, Prog.limited body => allHttpLimited true body
  | inL, Prog.seq a b => allHttpLimited inL a && allHttpLimited inL b

/-- The operation both token-checks and rate-limits every HTTP request it
issues. -/
def fullyGuarded (p : Prog) : Bool :=
  allHttpChecked p && allHttpLimited false p

/-- `n` sequential repetitions of a loop body. -/
def repeatProg (body : Prog) : Nat → Prog
  | 0 => Prog.skip
  | n + 1 => Prog.seq body (repeatProg body n)

/-- `object.list` (src/index.ts:183-202): token check, then a direct
(unlimited) request. -/
def objectList_prog : Prog :=
  Prog.seq Prog.ensure (Prog.http "POST meta/objects/list")

/-- `object.metadata.field` (src/index.ts:211-225). -/
def metadataField_prog : Prog :=
  Prog.seq Prog.ensure (Prog.http "GET meta/objects/X/fields/Y")

/-- `object.metadata.fields` (src/index.ts:233-247). -/
def metadataFields_prog : Prog :=
  Prog.seq Prog.ensure (Prog.http "GET meta/objects/X")

/-- `object.search.record` (src/index.ts:257-275): limiter around token
check plus request. -/
def searchRecord_prog : Prog :=
  Prog.limited (Prog.seq Prog.ensure (Prog.http "POST records/:id"))

/-- `object.search.records` (src/index.ts:283-296): token check, then a
direct (unlimited) request. -/
def searchRecords_prog : Prog :=
  Prog.seq Prog.ensure (Prog.http "POST records_query")

/-- One page fetch of `object.search.recordsWithIterator`
(src/index.ts:316-347): `functionLimiter` around a call of
`object.search.records`. -/
def searchPage_body : Prog :=
  Prog.limited searchRecords_prog

/-- `object.search.recordsWithIterator` issuing `k + 1` page fetches. -/
def searchIter_prog (k : Nat) : Prog :=
  repeatProg searchPage_body (k + 1)

/-- `object.create.record` (src/index.ts:361-386). -/
def createRecord_prog : Prog :=
  Prog.limited (Prog.seq Prog.ensure (Prog.http "POST records"))

/-- `object.create.records` (src/index.ts:394-412): token check, then a
direct (unlimited) request. -/
def createRecords_prog : Prog :=
  Prog.seq Prog.ensure (Prog.http "POST records_batch")

/-- `object.create.recordsWithIterator` over `n` chunks
(src/index.ts:420-459): each chunk is `functionLimiter` around a call of
`object.create.records`. -/
def createIter_prog (n : Nat) : Prog :=
  repeatProg (Prog.limited createRecords_prog) n

/-- `object.update.record` (src/index.ts:469-487). -/
def updateRecord_prog : Prog :=
  Prog.limited (Prog.seq Prog.ensure (Prog.http "PATCH records/:id"))

/-- `object.update.records` (src/index.ts:495-508): the request is issued
with neither `ensureTokenValid` nor `functionLimiter`. -/
def updateRecords_prog : Prog :=
  Prog.http "PATCH records/records_batch"

/-- `object.update.recordsWithIterator` over `n` chunks
(src/index.ts:516-546). -/
def updateIter_prog (n : Nat) : Prog :=
  repeatProg (Prog.limited (Prog.seq Prog.ensure (Prog.http "PATCH records_batch"))) n

/-- `object.delete.record` (src/index.ts:556-576). -/
def deleteRecord_prog : Prog :=
  Prog.limited (Prog.seq Prog.ensure (Prog.http "DELETE records/:id"))

/-- `object.delete.records` (src/index.ts:584-606). -/
def deleteRecords_prog : Prog :=
  Prog.limited (Prog.seq Prog.ensure (Prog.http "DELETE records_batch"))

/-- `object.delete.recordsWithIterator` over `n` chunks
(src/index.ts:614-647). -/
def deleteIter_prog (n : Nat) : Prog :=
  repeatProg (Prog.limited (Prog.seq Prog.ensure (Prog.http "DELETE records_batch"))) n

/-- `department.exchange` (src/index.ts:660-691). -/
def departmentExchange_prog : Prog :=
  Prog.limited (Prog.seq Prog.ensure (Prog.http "POST getDepartments"))

/-- `department.batchExchange` over `n` chunks (src/index.ts:698-742). -/
def departmentBatchExchange_prog (n : Nat) : Prog :=
  repeatProg (Prog.limited (Prog.seq Prog.ensure (Prog.http "POST getDepartments"))) n

/-- `function.invoke` (src/index.ts:754-777): token check, then a direct
(unlimited) request. -/
def functionInvoke_prog : Prog :=
  Prog.seq Prog.ensure (Prog.http "POST invoke/:name")

/-- Control flow of every public operation of the client, the multi-chunk
and multi-page iterators shown with two chunks / two pages. -/
def clientOps : List Prog :=
  [objectList_prog, metadataField_prog, metadataFields_prog,
   searchRecord_prog, searchRecords_prog, searchIter_prog 1,
   createRecord_prog, createRecords_prog, createIter_prog 2,
   updateRecord_prog, updateRecords_prog, updateIter_prog 2,
   deleteRecord_prog, deleteRecords_prog, deleteIter_prog 2,
   departmentExchange_prog, departmentBatchExchange_prog 2,
   functionInvoke_prog]

/-! ## Token manager -/

theorem getAccessToken_preserves_disable (s : ClientState) (resp : TokenResponse) :
    (getAccessToken s resp).2.disableTokenCache = s.disableTokenCache := by
  unfold getAccessToken
  split <;> rfl

theorem ensureTokenValid_noop (s : ClientState) (now : Int) (resp : TokenResponse)
    (hd : s.disableTokenCache = false) (ha : jsStrFalsy s.accessToken = false)
    (he : jsIntFalsy s.expireTime = false)
    (ht : ¬ now + 60000 > s.expireTime.getD 0) :
    ensureTokenValid s now resp = (0, Except.ok (), s) := by
  have hcond : ¬ now + 60 * 1000 > s.expireTime.getD 0 := by omega
  unfold ensureTokenValid
  rw [hd, ha, he, if_neg hcond]
  simp

theorem runEnsureFold_noop (s : ClientState)
    (hd : s.disableTokenCache = false) (ha : jsStrFalsy s.accessToken = false)
    (he : jsIntFalsy s.expireTime = false) :
    ∀ (calls : List (Int × TokenResponse)) (n : Nat),
      (∀ c ∈ calls, s.expireTime.getD 0 - c.1 > 60000) →
      calls.foldl
        (fun acc c =>
          let r := ensureTokenValid acc.2 c.1 c.2
          (acc.1 + r.1, r.2.2))
        (n, s) = (n, s)
  | [], n, _ => rfl
  | c :: cs, n, h => by
    have hc := h c (List.mem_cons_self c cs)
    have hstep : ensureTokenValid s c.1 c.2 = (0, Except.ok (), s) :=
      ensureTokenValid_noop s c.1 c.2 hd ha he (by omega)
    simp only [List.foldl_cons, hstep]
    exact runEnsureFold_noop s hd ha he cs n
      (fun d hd2 => h d (List.mem_cons_of_mem c hd2))

theorem runEnsureFold_disabled :
    ∀ (calls : List (Int × TokenResponse)) (n : Nat) (s : ClientState),
      s.disableTokenCache = true →
      (calls.foldl
        (fun acc c =>
          let r := ensureTokenValid acc.2 c.1 c.2
          (acc.1 + r.1, r.2.2))
        (n, s)).1 = n + calls.length
  | [], n, s, _ => by simp
  | c :: cs, n, s, hd => by
    have hstep : ensureTokenValid s c.1 c.2
        = (1, (getAccessToken s c.2).1, (getAccessToken s c.2).2) := by
      unfold ensureTokenValid
      rw [hd]
      simp
    simp only [List.foldl_cons, hstep]
    have hpres : (getAccessToken s c.2).2.disableTokenCache = true := by
      rw [getAccessToken_preserves_disable]; exact hd
    rw [runEnsureFold_disabled cs (n + 1) _ hpres]
    simp [List.length_cons]
    omega

/-- C2: `ensureTokenValid` exchanges credentials exactly when the cache is
disabled, no token/expiry is cached (JavaScript-falsy), or
`now + 60000 > expireTime`; otherwise it is a no-op issuing no call and
leaving the state untouched. Over call sequences: with caching enabled and
remaining validity above 60 s no exchange ever occurs, and with caching
disabled every call performs exactly one exchange. -/
theorem ensureTokenValid_exchange_iff :
    (∀ (s : ClientState) (now : Int) (resp : TokenResponse),
        ((ensureTokenValid s now resp).1 = 1 ↔
          (s.disableTokenCache = true ∨ jsStrFalsy s.accessToken = true ∨
           jsIntFalsy s.expireTime = true ∨ now + 60000 > s.expireTime.getD 0)) ∧
        (¬ (s.disableTokenCache = true ∨ jsStrFalsy s.accessToken = true ∨
            jsIntFalsy s.expireTime = true ∨ now + 60000 > s.expireTime.getD 0) →
          ensureTokenValid s now resp = (0, Except.ok (), s))) ∧
    (∀ (s : ClientState) (calls : List (Int × TokenResponse)),
        s.disableTokenCache = false → jsStrFalsy s.accessToken = false →
        jsIntFalsy s.expireTime = false →
        (∀ c ∈ calls, s.expireTime.getD 0 - c.1 > 60000) →
        (runEnsureSeq s calls).1 = 0) ∧
    (∀ (s : ClientState) (calls : List (Int × TokenResponse)),
        s.disableTokenCache = true →
        (runEnsureSeq s calls).1 = calls.length) := by
  refine ⟨fun s now resp => ⟨?_, ?_⟩, fun s calls hd ha he h => ?_, fun s calls hd => ?_⟩
  · unfold ensureTokenValid
    split_ifs with h1 h2 h3
    · simp [h1]
    · simp only [Bool.or_eq_true] at h2
      simp [h2]
      tauto
    · have hgt : now + 60000 > s.expireTime.getD 0 := by omega
      simp [hgt]
    · simp only [Bool.or_eq_true] at h2
      push_neg at h2
      constructor
      · intro h
        simp at h
      · rintro (h | h | h | h)
        · exact absurd h h1
        · exact absurd h h2.1
        · exact absurd h h2.2
        · omega
  · intro h
    push_neg at h
    obtain ⟨h1, h2, h3, h4⟩ := h
    exact ensureTokenValid_noop s now resp
      (by simpa using h1) (by simpa using h2) (by simpa using h3) (by omega)
  · have := runEnsureFold_noop s hd ha he calls 0 h
    unfold runEnsureSeq
    rw [this]
  · have := runEnsureFold_disabled calls 0 s hd
    unfold runEnsureSeq
    rw [this]
    omega

theorem ensureTokenValid_exchange_iff_witness :
    (ensureTokenValid ⟨"id", "sec", "ns", false, some "tok", some 1000000⟩ 0
        ⟨"0", ⟨"t2", 5⟩, ""⟩).1 = 0 ∧
    (runEnsureSeq ⟨"id", "sec", "ns", true, none, none⟩
        [(0, ⟨"0", ⟨"t", 99⟩, ""⟩), (1, ⟨"0", ⟨"t", 99⟩, ""⟩)]).1 = 2 := by
  constructor
  · have h := (ensureTokenValid_exchange_iff.1
      ⟨"id", "sec", "ns", false, some "tok", some 1000000⟩ 0 ⟨"0", ⟨"t2", 5⟩, ""⟩).2
      (by decide)
    rw [h]
  · exact ensureTokenValid_exchange_iff.2.2
      ⟨"id", "sec", "ns", true, none, none⟩
      [(0, ⟨"0", ⟨"t", 99⟩, ""⟩), (1, ⟨"0", ⟨"t", 99⟩, ""⟩)] rfl

/-- C5: on a non-`"0"` auth response code `getAccessToken` fails with an
error message containing the server-supplied `msg` and leaves the cached
state exactly as it was; on code `"0"` it replaces `accessToken` and
`expireTime` together. -/
theorem getAccessToken_spec :
    ∀ (s : ClientState) (resp : TokenResponse),
      (resp.code ≠ "0" →
        (∃ pre post, (getAccessToken s resp).1
            = Except.error (pre ++ resp.msg ++ post)) ∧
        (getAccessToken s resp).2 = s) ∧
      (resp.code = "0" →
        (getAccessToken s resp).2
          = { s with accessToken := some resp.data.accessToken,
                     expireTime := some resp.data.expireTime }) := by
  intro s resp
  refine ⟨fun hc => ?_, fun hc => ?_⟩
  · unfold getAccessToken
    rw [if_pos hc]
    exact ⟨⟨"获取 accessToken 失败: ", "", by rw [String.append_empty]⟩, rfl⟩
  · unfold getAccessToken
    split_ifs with h
    · exact absurd hc h
    · rfl

theorem getAccessToken_spec_witness :
    ((∃ pre post,
        (getAccessToken ⟨"id", "sec", "ns", false, none, none⟩
            ⟨"1", ⟨"t", 0⟩, "bad secret"⟩).1
          = Except.error (pre ++ "bad secret" ++ post)) ∧
     (getAccessToken ⟨"id", "sec", "ns", false, none, none⟩
         ⟨"1", ⟨"t", 0⟩, "bad secret"⟩).2
       = ⟨"id", "sec", "ns", false, none, none⟩) ∧
    (getAccessToken ⟨"id", "sec", "ns", false, none, none⟩
        ⟨"0", ⟨"t", 99⟩, "ok"⟩).2
      = ⟨"id", "sec", "ns", false, some "t", some 99⟩ := by
  constructor
  · exact (getAccessToken_spec ⟨"id", "sec", "ns", false, none, none⟩
      ⟨"1", ⟨"t", 0⟩, "bad secret"⟩).1 (by decide)
  · exact (getAccessToken_spec ⟨"id", "sec", "ns", false, none, none⟩
      ⟨"0", ⟨"t", 99⟩, "ok"⟩).2 rfl

/-- C8 counterexample: with a cached token and 500 ms of validity left
(`expireTime = 1500`, `now = 1000`) the getter returns `some 0`, which is
neither strictly positive nor equal to `max(0, expireTime - now) = 500`,
although the token has not lapsed. -/
theorem tokenExpireTime_subsecond_zero :
    tokenExpireTime ⟨"id", "sec", "ns", false, some "tok", some 1500⟩ 1000
        = some 0 ∧
    (0 : Int) < 1500 - 1000 ∧
    some (0 : Int) ≠ some (1500 - 1000 : Int) := by decide

/-- C8 (amended): `tokenExpireTime` returns `none` when no token or expiry
is cached (JavaScript-falsy), `some 0` once `expireTime ≤ now`, and
otherwise the remaining time in whole seconds,
`⌊(expireTime - now) / 1000⌋` — which is positive whenever at least one
full second remains, but `0` below one second. The getter is a pure read
of the state. -/
theorem tokenExpireTime_spec :
    ∀ (s : ClientState) (now : Int),
      ((jsStrFalsy s.accessToken || jsIntFalsy s.expireTime) = true →
        tokenExpireTime s now = none) ∧
      ((jsStrFalsy s.accessToken || jsIntFalsy s.expireTime) = false →
        (s.expireTime.getD 0 - now ≤ 0 → tokenExpireTime s now = some 0) ∧
        (0 < s.expireTime.getD 0 - now →
          tokenExpireTime s now = some ((s.expireTime.getD 0 - now) / 1000) ∧
          (1000 ≤ s.expireTime.getD 0 - now →
            0 < (s.expireTime.getD 0 - now) / 1000))) := by
  intro s now
  constructor
  · intro h
    unfold tokenExpireTime
    rw [if_pos h]
  · intro h
    have hne : ¬ (jsStrFalsy s.accessToken || jsIntFalsy s.expireTime) = true := by
      rw [h]
      decide
    refine ⟨fun hle => ?_, fun hpos => ⟨?_, fun hbig => ?_⟩⟩
    · unfold tokenExpireTime
      rw [if_neg hne, if_pos hle]
    · unfold tokenExpireTime
      rw [if_neg hne, if_neg (by omega)]
    · omega

theorem tokenExpireTime_spec_witness :
    tokenExpireTime ⟨"id", "sec", "ns", false, none, none⟩ 0 = none ∧
    tokenExpireTime ⟨"id", "sec", "ns", false, some "t", some 5⟩ 7 = some 0 ∧
    tokenExpireTime ⟨"id", "sec", "ns", false, some "t", some 2500⟩ 0
      = some 2 := by
  refine ⟨(tokenExpireTime_spec ⟨"id", "sec", "ns", false, none, none⟩ 0).1 rfl,
    ((tokenExpireTime_spec ⟨"id", "sec", "ns", false, some "t", some 5⟩ 7).2
      (by decide)).1 (by decide), ?_⟩
  have h := (((tokenExpireTime_spec
    ⟨"id", "sec", "ns", false, some "t", some 2500⟩ 0).2 (by decide)).2
    (by decide)).1
  rw [h]
  decide

/-! ## Chunking -/

theorem chunkList_cons {α : Type} (x : α) (xs : List α) :
    chunkList (x :: xs)
      = (x :: xs).take 100 :: chunkList ((x :: xs).drop 100) := by
  unfold chunkList
  have hcount : ((x :: xs).length + 99) / 100
      = (((x :: xs).drop 100).length + 99) / 100 + 1 := by
    simp only [List.length_drop, List.length_cons]
    omega
  rw [hcount, List.range_succ_eq_map, List.map_cons, List.map_map]
  refine List.cons_eq_cons.mpr ⟨by simp, ?_⟩
  apply List.map_congr_left
  intro k _
  show ((x :: xs).drop (100 * (k + 1))).take 100
      = (((x :: xs).drop 100).drop (100 * k)).take 100
  rw [List.drop_drop]
  congr 2
  omega

theorem chunkList_flatten {α : Type} : ∀ (xs : List α), (chunkList xs).flatten = xs
  | [] => by simp [chunkList]
  | x :: xs => by
    rw [chunkList_cons, List.flatten_cons,
      chunkList_flatten ((x :: xs).drop 100), List.take_append_drop]
termination_by xs => xs.length
decreasing_by
  simp only [List.length_drop, List.length_cons]
  omega

theorem chunkList_length {α : Type} (xs : List α) :
    (chunkList xs).length = (xs.length + 99) / 100 := by
  simp [chunkList]

theorem chunkList_chunk_le {α : Type} (xs : List α) :
    ∀ c ∈ chunkList xs, c.length ≤ 100 := by
  intro c hc
  simp only [chunkList, List.mem_map] at hc
  obtain ⟨k, _, rfl⟩ := hc
  exact List.length_take_le 100 _

theorem runChunkCalls_ok_log {α R : Type} (server : Nat → List α → Except String R)
    (hok : ∀ i c, ∃ r, server i c = Except.ok r) :
    ∀ (chunks : List (List α)) (i : Nat) (acc : List R) (log : List (List α)),
      (runChunkCalls server i chunks acc log).1 = log ++ chunks
  | [], i, acc, log => by simp [runChunkCalls]
  | c :: cs, i, acc, log => by
    obtain ⟨r, hr⟩ := hok i c
    simp only [runChunkCalls, hr]
    rw [runChunkCalls_ok_log server hok cs (i + 1) (acc ++ [r]) (log ++ [c])]
    simp

theorem createGo_nonArr_log {α R : Type} :
    ∀ (chunks : List (List α)) (i : Nat) (acc : List R) (log : List (List α)),
      (createGo (fun _ _ => Except.ok ⟨some ⟨JsItems.nonArr⟩⟩) i chunks acc log).1
        = log ++ chunks
  | [], i, acc, log => by simp [createGo]
  | c :: cs, i, acc, log => by
    simp only [createGo]
    rw [createGo_nonArr_log cs (i + 1) acc (log ++ [c])]
    simp

theorem departmentBatchGo_emptyArr_log {D : Type} :
    ∀ (chunks : List (List String)) (i : Nat) (acc : List D) (log : List (List String)),
      (departmentBatchGo (fun _ _ => Except.ok ⟨some []⟩) i chunks acc log).1
        = log ++ chunks
  | [], i, acc, log => by simp [departmentBatchGo]
  | c :: cs, i, acc, log => by
    simp only [departmentBatchGo]
    rw [departmentBatchGo_emptyArr_log cs (i + 1) (acc ++ []) (log ++ [c])]
    simp

theorem createRecordsWithIterator_fst {α R : Type}
    (server : Nat → List α → Except String (CreateResp R)) (records : List α) :
    (createRecordsWithIterator server records).1
      = (createGo server 0 (chunkList records) [] []).1 := by
  unfold createRecordsWithIterator
  cases hcg : createGo server 0 (chunkList records) [] [] with
  | mk log res => cases res <;> simp

/-- C4: every chunking iterator (create, update, delete, department batch
exchange) splits its input into `⌈N / 100⌉` chunks of at most 100 elements
whose in-order concatenation is exactly the input, and dispatches exactly
those chunks in order. -/
theorem chunking_reconstruction :
    (∀ (α : Type) (xs : List α),
        (chunkList xs).flatten = xs ∧
        (chunkList xs).length = (xs.length + 99) / 100 ∧
        ∀ c ∈ chunkList xs, c.length ≤ 100) ∧
    (∀ (α R : Type) (records : List α) (r : R),
        (updateRecordsWithIterator (fun _ _ => Except.ok r) records).1
          = chunkList records ∧
        (deleteRecordsWithIterator (fun _ _ => Except.ok r) records).1
          = chunkList records) ∧
    (∀ (α R : Type) (records : List α),
        (createRecordsWithIterator (R := R)
            (fun _ _ => Except.ok ⟨some ⟨JsItems.nonArr⟩⟩) records).1
          = chunkList records) ∧
    (∀ (D : Type) (ids : List String),
        (departmentBatchExchange (D := D)
            (fun _ _ => Except.ok ⟨some []⟩) ids).1
          = chunkList ids) := by
  refine ⟨fun α xs => ⟨chunkList_flatten xs, chunkList_length xs,
      chunkList_chunk_le xs⟩,
    fun α R records r => ⟨?_, ?_⟩, fun α R records => ?_, fun D ids => ?_⟩
  · rw [updateRecordsWithIterator,
      runChunkCalls_ok_log _ (fun i c => ⟨r, rfl⟩) (chunkList records) 0 [] []]
    simp
  · rw [deleteRecordsWithIterator,
      runChunkCalls_ok_log _ (fun i c => ⟨r, rfl⟩) (chunkList records) 0 [] []]
    simp
  · rw [createRecordsWithIterator_fst,
      createGo_nonArr_log (chunkList records) 0 [] []]
    simp
  · rw [departmentBatchExchange,
      departmentBatchGo_emptyArr_log (chunkList ids) 0 [] []]
    simp

theorem chunking_reconstruction_witness :
    (chunkList (List.range 250)).flatten = List.range 250 ∧
    (chunkList (List.range 250)).length = 3 ∧
    (∀ c ∈ chunkList (List.range 250), c.length ≤ 100) ∧
    (updateRecordsWithIterator (fun _ _ => Except.ok 0) (List.range 250)).1
      = chunkList (List.range 250) := by
  obtain ⟨h1, h2, h3⟩ := chunking_reconstruction.1 Nat (List.range 250)
  refine ⟨h1, ?_, h3,
    (chunking_reconstruction.2.1 Nat Nat (List.range 250) 0).1⟩
  rw [h2]
  simp

theorem runChunkCalls_fail {α R : Type} (server : Nat → List α → Except String R) :
    ∀ (chunks : List (List α)) (i0 : Nat) (acc : List R) (log : List (List α))
      (j : Nat) (e : String),
      j < chunks.length →
      (∀ i, i < j → ∃ r, server (i0 + i) (chunks.getD i []) = Except.ok r) →
      server (i0 + j) (chunks.getD j []) = Except.error e →
      runChunkCalls server i0 chunks acc log
        = (log ++ chunks.take (j + 1), Except.error e)
  | [], _, _, _, j, e => by
    intro hj _ _
    exact absurd hj (Nat.not_lt_zero j)
  | c :: cs, i0, acc, log, j, e => by
    intro hj hok hfail
    cases j with
    | zero =>
      simp only [Nat.add_zero, List.getD_cons_zero] at hfail
      simp [runChunkCalls, hfail]
    | succ j' =>
      obtain ⟨r, hr⟩ := hok 0 (Nat.succ_pos j')
      simp only [Nat.add_zero, List.getD_cons_zero] at hr
      simp only [runChunkCalls, hr]
      have hfail2 : server (i0 + 1 + j') (cs.getD j' []) = Except.error e := by
        have h1 : i0 + 1 + j' = i0 + (j' + 1) := by omega
        rw [h1]
        simpa using hfail
      have hok2 : ∀ i, i < j' → ∃ r2, server (i0 + 1 + i) (cs.getD i [])
          = Except.ok r2 := by
        intro i hi
        have h1 : i0 + 1 + i = i0 + (i + 1) := by omega
        rw [h1]
        simpa using hok (i + 1) (by omega)
      rw [runChunkCalls_fail server cs (i0 + 1) (acc ++ [r]) (log ++ [c]) j' e
        (by simpa using Nat.lt_of_succ_lt_succ hj) hok2 hfail2]
      simp [List.take_succ_cons]

theorem createGo_fail {α R : Type}
    (server : Nat → List α → Except String (CreateResp R)) :
    ∀ (chunks : List (List α)) (i0 : Nat) (acc : List R) (log : List (List α))
      (j : Nat) (e : String),
      j < chunks.length →
      (∀ i, i < j → ∃ d, server (i0 + i) (chunks.getD i []) = Except.ok ⟨some d⟩ ∧
        d.items ≠ JsItems.nullish) →
      server (i0 + j) (chunks.getD j []) = Except.error e →
      createGo server i0 chunks acc log
        = (log ++ chunks.take (j + 1), Except.error e)
  | [], _, _, _, j, e => by
    intro hj _ _
    exact absurd hj (Nat.not_lt_zero j)
  | c :: cs, i0, acc, log, j, e => by
    intro hj hok hfail
    cases j with
    | zero =>
      simp only [Nat.add_zero, List.getD_cons_zero] at hfail
      simp [createGo, hfail]
    | succ j' =>
      obtain ⟨d, hr, hd⟩ := hok 0 (Nat.succ_pos j')
      simp only [Nat.add_zero, List.getD_cons_zero] at hr
      have hfail2 : server (i0 + 1 + j') (cs.getD j' []) = Except.error e := by
        have h1 : i0 + 1 + j' = i0 + (j' + 1) := by omega
        rw [h1]
        simpa using hfail
      have hok2 : ∀ i, i < j' → ∃ d2, server (i0 + 1 + i) (cs.getD i [])
          = Except.ok ⟨some d2⟩ ∧ d2.items ≠ JsItems.nullish := by
        intro i hi
        have h1 : i0 + 1 + i = i0 + (i + 1) := by omega
        rw [h1]
        simpa using hok (i + 1) (by omega)
      have hlen : j' < cs.length := by simpa using Nat.lt_of_succ_lt_succ hj
      cases hitems : d.items with
      | arr xs =>
        simp only [createGo, hr, hitems]
        rw [createGo_fail server cs (i0 + 1) (acc ++ xs) (log ++ [c]) j' e
          hlen hok2 hfail2]
        simp [List.take_succ_cons]
      | nonArr =>
        simp only [createGo, hr, hitems]
        rw [createGo_fail server cs (i0 + 1) acc (log ++ [c]) j' e
          hlen hok2 hfail2]
        simp [List.take_succ_cons]
      | nullish => exact absurd hitems hd

/-- C6: in every chunked batch iterator (update, delete, create), if the
call for chunk `j + 1` out of `M` fails, the chunks before it were each
dispatched exactly once in input order, chunk `j + 1` was dispatched and
failed, no later chunk is ever dispatched, and the error propagates with
no results of the earlier successful chunks. -/
theorem chunked_abort_on_failure :
    (∀ (α R : Type) (server : Nat → List α → Except String R)
        (records : List α) (j : Nat) (e : String),
        j < (chunkList records).length →
        (∀ i, i < j → ∃ r, server i ((chunkList records).getD i [])
          = Except.ok r) →
        server j ((chunkList records).getD j []) = Except.error e →
        updateRecordsWithIterator server records
          = ((chunkList records).take (j + 1), Except.error e) ∧
        deleteRecordsWithIterator server records
          = ((chunkList records).take (j + 1), Except.error e)) ∧
    (∀ (α R : Type) (server : Nat → List α → Except String (CreateResp R))
        (records : List α) (j : Nat) (e : String),
        j < (chunkList records).length →
        (∀ i, i < j → ∃ d, server i ((chunkList records).getD i [])
          = Except.ok ⟨some d⟩ ∧ d.items ≠ JsItems.nullish) →
        server j ((chunkList records).getD j []) = Except.error e →
        createRecordsWithIterator server records
          = ((chunkList records).take (j + 1), Except.error e)) := by
  constructor
  · intro α R server records j e hj hok hfail
    have h := runChunkCalls_fail server (chunkList records) 0 [] [] j e hj
      (fun i hi => by simpa using hok i hi) (by simpa using hfail)
    constructor
    · rw [updateRecordsWithIterator, h]
      simp
    · rw [deleteRecordsWithIterator, h]
      simp
  · intro α R server records j e hj hok hfail
    have h := createGo_fail server (chunkList records) 0 [] [] j e hj
      (fun i hi => by simpa using hok i hi) (by simpa using hfail)
    rw [createRecordsWithIterator, h]
    simp

theorem chunked_abort_on_failure_witness :
    updateRecordsWithIterator
        (fun i (_ : List Nat) => if i = 0 then Except.ok 7 else Except.error "boom")
        (List.range 150)
      = ((chunkList (List.range 150)).take 2, Except.error "boom") ∧
    deleteRecordsWithIterator
        (fun i (_ : List Nat) => if i = 0 then Except.ok 7 else Except.error "boom")
        (List.range 150)
      = ((chunkList (List.range 150)).take 2, Except.error "boom") := by
  have h := chunked_abort_on_failure.1 Nat Nat
    (fun i _ => if i = 0 then Except.ok 7 else Except.error "boom")
    (List.range 150) 1 "boom"
    (by rw [chunkList_length]; simp)
    (fun i hi => ⟨7, by
      have h0 : i = 0 := by omega
      subst h0
      rfl⟩)
    rfl
  exact h

theorem createGo_ok {α R : Type}
    (server : Nat → List α → Except String (CreateResp R)) :
    ∀ (chunks : List (List α)) (ds : List (CreateData R)) (i0 : Nat)
      (acc : List R) (log : List (List α)),
      ds.length = chunks.length →
      (∀ i, i < chunks.length → server (i0 + i) (chunks.getD i [])
          = Except.ok ⟨some (ds.getD i ⟨JsItems.nullish⟩)⟩ ∧
        (ds.getD i ⟨JsItems.nullish⟩).items ≠ JsItems.nullish) →
      createGo server i0 chunks acc log
        = (log ++ chunks,
           Except.ok (acc ++ (ds.map (fun d => arrItems d.items)).flatten))
  | [], ds, i0, acc, log => by
    intro hlen _
    have hds : ds = [] := List.length_eq_zero.mp (by simpa using hlen)
    subst hds
    simp [createGo]
  | c :: cs, ds, i0, acc, log => by
    intro hlen hok
    cases ds with
    | nil => simp at hlen
    | cons d ds2 =>
      obtain ⟨hr, hd⟩ := hok 0 (Nat.succ_pos _)
      simp only [Nat.add_zero, List.getD_cons_zero] at hr hd
      have hlen2 : ds2.length = cs.length := by simpa using hlen
      have hok2 : ∀ i, i < cs.length → server (i0 + 1 + i) (cs.getD i [])
          = Except.ok ⟨some (ds2.getD i ⟨JsItems.nullish⟩)⟩ ∧
          (ds2.getD i ⟨JsItems.nullish⟩).items ≠ JsItems.nullish := by
        intro i hi
        have h1 : i0 + 1 + i = i0 + (i + 1) := by omega
        rw [h1]
        simpa using hok (i + 1) (by simpa using Nat.succ_lt_succ hi)
      cases hitems : d.items with
      | arr xs =>
        simp only [createGo, hr, hitems]
        rw [createGo_ok server cs ds2 (i0 + 1) (acc ++ xs) (log ++ [c])
          hlen2 hok2]
        simp [hitems, arrItems]
      | nonArr =>
        simp only [createGo, hr, hitems]
        rw [createGo_ok server cs ds2 (i0 + 1) acc (log ++ [c]) hlen2 hok2]
        simp [hitems, arrItems]
      | nullish => exact absurd hitems hd

theorem createGo_badresp {α R : Type}
    (server : Nat → List α → Except String (CreateResp R)) :
    ∀ (chunks : List (List α)) (i0 : Nat) (acc : List R) (log : List (List α))
      (j : Nat),
      j < chunks.length →
      (∀ i, i < j → ∃ d, server (i0 + i) (chunks.getD i []) = Except.ok ⟨some d⟩ ∧
        d.items ≠ JsItems.nullish) →
      (server (i0 + j) (chunks.getD j []) = Except.ok ⟨none⟩ ∨
        ∃ d, server (i0 + j) (chunks.getD j []) = Except.ok ⟨some d⟩ ∧
          d.items = JsItems.nullish) →
      createGo server i0 chunks acc log
        = (log ++ chunks.take (j + 1), Except.error jsLengthTypeError)
  | [], _, _, _, j => by
    intro hj _ _
    exact absurd hj (Nat.not_lt_zero j)
  | c :: cs, i0, acc, log, j => by
    intro hj hok hbad
    cases j with
    | zero =>
      rcases hbad with hb | ⟨d, hb, hd⟩
      · simp only [Nat.add_zero, List.getD_cons_zero] at hb
        simp [createGo, hb]
      · simp only [Nat.add_zero, List.getD_cons_zero] at hb
        simp [createGo, hb, hd]
    | succ j' =>
      obtain ⟨d, hr, hd⟩ := hok 0 (Nat.succ_pos j')
      simp only [Nat.add_zero, List.getD_cons_zero] at hr
      have hlen : j' < cs.length := by simpa using Nat.lt_of_succ_lt_succ hj
      have hok2 : ∀ i, i < j' → ∃ d2, server (i0 + 1 + i) (cs.getD i [])
          = Except.ok ⟨some d2⟩ ∧ d2.items ≠ JsItems.nullish := by
        intro i hi
        have h1 : i0 + 1 + i = i0 + (i + 1) := by omega
        rw [h1]
        simpa using hok (i + 1) (by omega)
      have hbad2 : server (i0 + 1 + j') (cs.getD j' []) = Except.ok ⟨none⟩ ∨
          ∃ d2, server (i0 + 1 + j') (cs.getD j' []) = Except.ok ⟨some d2⟩ ∧
            d2.items = JsItems.nullish := by
        have h1 : i0 + 1 + j' = i0 + (j' + 1) := by omega
        rw [h1]
        simpa using hbad
      cases hitems : d.items with
      | arr xs =>
        simp only [createGo, hr, hitems]
        rw [createGo_badresp server cs (i0 + 1) (acc ++ xs) (log ++ [c]) j'
          hlen hok2 hbad2]
        simp [List.take_succ_cons]
      | nonArr =>
        simp only [createGo, hr, hitems]
        rw [createGo_badresp server cs (i0 + 1) acc (log ++ [c]) j'
          hlen hok2 hbad2]
        simp [List.take_succ_cons]
      | nullish => exact absurd hitems hd

/-- C9 counterexample: a single-chunk create whose response has
`data.items` nullish (not an array) does not skip the chunk — the
operation fails with the `TypeError` raised by the unguarded
`res.data.items.length` log access, instead of returning
`{ total: 1, items: [] }`. -/
theorem createIterator_nullish_items_fails :
    createRecordsWithIterator (R := Nat)
        (fun _ _ => Except.ok ⟨some ⟨JsItems.nullish⟩⟩) [0]
      = ([[0]], Except.error jsLengthTypeError) := rfl

/-- C9 (amended): `object.create.recordsWithIterator` returns
`total = records.length` independently of the server, and `items` is the
in-order concatenation of the chunk responses' `data.items` arrays, a
non-array non-nullish `data.items` contributing nothing; but a chunk
response whose `data` is absent or whose `data.items` is nullish makes the
operation fail with a `TypeError` instead of being skipped. -/
theorem createRecordsWithIterator_spec :
    (∀ (α R : Type) (server : Nat → List α → Except String (CreateResp R))
        (records : List α) (ds : List (CreateData R)),
        ds.length = (chunkList records).length →
        (∀ i, i < (chunkList records).length →
          server i ((chunkList records).getD i [])
            = Except.ok ⟨some (ds.getD i ⟨JsItems.nullish⟩)⟩ ∧
          (ds.getD i ⟨JsItems.nullish⟩).items ≠ JsItems.nullish) →
        createRecordsWithIterator server records
          = (chunkList records,
             Except.ok (records.length,
               (ds.map (fun d => arrItems d.items)).flatten))) ∧
    (∀ (α R : Type) (server : Nat → List α → Except String (CreateResp R))
        (records : List α) (j : Nat),
        j < (chunkList records).length →
        (∀ i, i < j → ∃ d, server i ((chunkList records).getD i [])
            = Except.ok ⟨some d⟩ ∧ d.items ≠ JsItems.nullish) →
        (server j ((chunkList records).getD j []) = Except.ok ⟨none⟩ ∨
          ∃ d, server j ((chunkList records).getD j []) = Except.ok ⟨some d⟩ ∧
            d.items = JsItems.nullish) →
        createRecordsWithIterator server records
          = ((chunkList records).take (j + 1),
             Except.error jsLengthTypeError)) := by
  constructor
  · intro α R server records ds hlen hok
    have h := createGo_ok server (chunkList records) ds 0 [] [] hlen
      (fun i hi => by simpa using hok i hi)
    rw [createRecordsWithIterator, h]
    simp
  · intro α R server records j hj hok hbad
    have h := createGo_badresp server (chunkList records) 0 [] [] j hj
      (fun i hi => by simpa using hok i hi) (by simpa using hbad)
    rw [createRecordsWithIterator, h]
    simp

theorem createRecordsWithIterator_spec_witness :
    createRecordsWithIterator (R := Nat)
        (fun _ _ => Except.ok ⟨some ⟨JsItems.arr [5]⟩⟩) [1, 2, 3]
      = (chunkList [1, 2, 3], Except.ok (3, [5])) := by
  have h := createRecordsWithIterator_spec.1 Nat Nat
    (fun _ _ => Except.ok ⟨some ⟨JsItems.arr [5]⟩⟩) [1, 2, 3]
    [⟨JsItems.arr [5]⟩]
    (by rw [chunkList_length]; rfl)
    (fun i hi => by
      have h0 : i = 0 := by
        rw [chunkList_length] at hi
        simp at hi
        omega
      subst h0
      exact ⟨rfl, by decide⟩)
  exact h

/-- C10: `department.exchange` returns only the first element of the
response's `data` array (`response.data.data[0]`), not the envelope or the
whole array; an empty `data` array yields JavaScript `undefined`
(modelled `Except.ok none`), and a response with no `data` field makes the
call fail. -/
theorem departmentExchange_first_element :
    ∀ (D : Type) (resp : DeptResp D),
      (∀ (x : D) (t : List D), resp.data = some (x :: t) →
        departmentExchange resp = Except.ok (some x)) ∧
      (resp.data = some [] → departmentExchange resp = Except.ok none) ∧
      (resp.data = none → ∃ e, departmentExchange resp = Except.error e) := by
  intro D resp
  refine ⟨fun x t hx => ?_, fun he => ?_, fun hn => ?_⟩
  · rw [departmentExchange, hx]
    rfl
  · rw [departmentExchange, he]
    rfl
  · rw [departmentExchange, hn]
    exact ⟨_, rfl⟩

theorem departmentExchange_first_element_witness :
    departmentExchange (D := Nat) ⟨some [4, 5, 6]⟩ = Except.ok (some 4) ∧
    departmentExchange (D := Nat) ⟨some []⟩ = Except.ok none ∧
    ∃ e, departmentExchange (D := Nat) ⟨none⟩ = Except.error e :=
  ⟨(departmentExchange_first_element Nat ⟨some [4, 5, 6]⟩).1 4 [5, 6] rfl,
   (departmentExchange_first_element Nat ⟨some []⟩).2.1 rfl,
   (departmentExchange_first_element Nat ⟨none⟩).2.2 rfl⟩

/-! ## Pagination -/

theorem searchGo_total_inv {R : Type} :
    ∀ (pages : List (PageResp R)) (tok : String) (p total : Nat)
      (acc : List R) (log : List String) (out : Nat × List R × List String),
      1 ≤ p →
      searchGo pages tok p total acc log = Except.ok out →
      out.1 = total
  | [], tok, p, total, acc, log, out => by
    intro hp h
    simp [searchGo] at h
  | q :: rest, tok, p, total, acc, log, out => by
    intro hp h
    have hne : ¬ (p + 1 = 1) := by omega
    cases hd : q.data with
    | none =>
      simp only [searchGo, hd] at h
      exact Except.noConfusion h
    | some d =>
      simp only [searchGo, hd, if_neg hne] at h
      split at h
      · injection h with h2
        rw [← h2]
      · exact searchGo_total_inv rest _ (p + 1) total _ _ out (by omega) h

theorem searchGo_run {R : Type} :
    ∀ (body : List (PageData R)) (last : PageData R) (tok : String)
      (p total : Nat) (acc : List R) (log : List String),
      1 ≤ p →
      (∀ d ∈ body, d.next_page_token.getD "" ≠ "") →
      last.next_page_token.getD "" = "" →
      searchGo ((body ++ [last]).map (fun d => PageResp.mk (some d)))
          tok p total acc log
        = Except.ok (total,
            acc ++ ((body ++ [last]).map (fun d => d.items.getD [])).flatten,
            log ++ tok :: body.map (fun d => d.next_page_token.getD ""))
  | [], last, tok, p, total, acc, log => by
    intro hp _ hlast
    have hne : ¬ (p + 1 = 1) := by omega
    cases hi : last.items <;>
      simp [searchGo, hlast, hne, hi]
  | b :: body, last, tok, p, total, acc, log => by
    intro hp hbody hlast
    have hne : ¬ (p + 1 = 1) := by omega
    have hb : b.next_page_token.getD "" ≠ "" :=
      hbody b (List.mem_cons_self b body)
    have hbne : ¬ (b.next_page_token.getD "" == "") = true := by
      simpa using hb
    have hrec := searchGo_run body last (b.next_page_token.getD "") (p + 1)
      total (acc ++ b.items.getD []) (log ++ [tok]) (by omega)
      (fun d hd => hbody d (List.mem_cons_of_mem b hd)) hlast
    cases hi : b.items with
    | some xs =>
      rw [hi] at hrec
      simp only [Option.getD_some, List.append_eq] at hrec
      simp only [List.cons_append, List.map_cons, searchGo, if_neg hne,
        if_neg hbne, hi, List.append_eq]
      rw [hrec]
      simp
    | none =>
      rw [hi] at hrec
      simp only [Option.getD_none, List.append_nil, List.append_eq] at hrec
      simp only [List.cons_append, List.map_cons, searchGo, if_neg hne,
        if_neg hbne, hi, List.append_eq]
      rw [hrec]
      simp

/-- C3: against a server whose pages `1..k` each return a non-empty
`next_page_token` and whose page `k + 1` returns an empty or absent one,
`object.search.recordsWithIterator` performs exactly `k + 1` fetches,
terminates, and returns the in-order concatenation of the per-page item
arrays; the first fetch carries the empty-string `page_token` and each
later fetch carries the token returned by the previous page. -/
theorem searchIterator_pagination :
    ∀ (R : Type) (body : List (PageData R)) (last : PageData R),
      (∀ d ∈ body, d.next_page_token.getD "" ≠ "") →
      last.next_page_token.getD "" = "" →
      ∃ t, searchRecordsWithIterator
          ((body ++ [last]).map (fun d => PageResp.mk (some d)))
        = Except.ok (t,
            ((body ++ [last]).map (fun d => d.items.getD [])).flatten,
            "" :: body.map (fun d => d.next_page_token.getD "")) ∧
        ("" :: body.map (fun d => d.next_page_token.getD "")).length
          = body.length + 1 := by
  intro R body last hbody hlast
  have h01 : ((0 : Nat) + 1 = 1) = True := by simp
  cases body with
  | nil =>
    refine ⟨last.total.getD 0, ?_, by simp⟩
    cases hi : last.items <;>
      simp [searchRecordsWithIterator, searchGo, hlast, hi]
  | cons b body2 =>
    refine ⟨b.total.getD 0, ?_, by simp⟩
    have hb : b.next_page_token.getD "" ≠ "" :=
      hbody b (List.mem_cons_self b body2)
    have hbne : ¬ (b.next_page_token.getD "" == "") = true := by
      simpa using hb
    have hrec := searchGo_run body2 last (b.next_page_token.getD "") 1
      (b.total.getD 0) ([] ++ b.items.getD []) ([] ++ [""]) (le_refl 1)
      (fun d hd => hbody d (List.mem_cons_of_mem b hd)) hlast
    cases hi : b.items with
    | some xs =>
      rw [hi] at hrec
      simp only [Option.getD_some, List.nil_append, List.append_eq] at hrec
      simp only [searchRecordsWithIterator, List.cons_append, List.map_cons,
        searchGo, hi, if_neg hbne, List.append_eq, h01, if_true,
        Nat.zero_add, List.nil_append]
      rw [hrec]
      simp
    | none =>
      rw [hi] at hrec
      simp only [Option.getD_none, List.nil_append, List.append_nil,
        List.append_eq] at hrec
      simp only [searchRecordsWithIterator, List.cons_append, List.map_cons,
        searchGo, hi, if_neg hbne, List.append_eq, h01, if_true,
        Nat.zero_add, List.nil_append]
      rw [hrec]
      simp

theorem searchIterator_pagination_witness :
    ∃ t, searchRecordsWithIterator (R := Nat)
        [⟨some ⟨some [1], some 9, some "t1"⟩⟩, ⟨some ⟨some [2], none, none⟩⟩]
      = Except.ok (t, [1, 2], ["", "t1"]) := by
  obtain ⟨t, h1, -⟩ := searchIterator_pagination Nat
    [⟨some [1], some 9, some "t1"⟩] ⟨some [2], none, none⟩
    (by
      intro d hd
      rw [List.mem_singleton] at hd
      subst hd
      decide)
    rfl
  exact ⟨t, by simpa using h1⟩

/-- C7: the `total` returned by `object.search.recordsWithIterator` is the
server's first-page `total` (defaulting to `0` when absent) and is never
recomputed from later pages or from the accumulated items, so it can
differ from `items.length`. -/
theorem searchIterator_total_from_first_page :
    (∀ (R : Type) (d : PageData R) (rest : List (PageResp R))
        (out : Nat × List R × List String),
        searchRecordsWithIterator (PageResp.mk (some d) :: rest)
          = Except.ok out →
        out.1 = d.total.getD 0) ∧
    (∃ out : Nat × List Nat × List String,
        searchRecordsWithIterator (R := Nat)
            [⟨some ⟨some [7], some 5, none⟩⟩]
          = Except.ok out ∧ out.1 ≠ out.2.1.length) := by
  constructor
  · intro R d rest out h
    have h01 : ((0 : Nat) + 1 = 1) = True := by simp
    rw [searchRecordsWithIterator] at h
    simp only [searchGo, h01, if_true] at h
    split at h
    · injection h with h2
      rw [← h2]
    · rw [Nat.zero_add] at h
      exact searchGo_total_inv rest _ 1 _ _ _ out (le_refl 1) h
  · exact ⟨(5, [7], [""]), rfl, by decide⟩

theorem searchIterator_total_witness :
    searchRecordsWithIterator (R := Nat) [⟨some ⟨some [7], some 5, none⟩⟩]
      = Except.ok (5, [7], [""]) ∧
    ((5 : Nat), ([7] : List Nat), ([""] : List String)).1
      = (PageData.mk (some ([7] : List Nat)) (some 5) none).total.getD 0 :=
  ⟨rfl, searchIterator_total_from_first_page.1 Nat ⟨some [7], some 5, none⟩ []
    (5, [7], [""]) rfl⟩

/-! ## Token check and rate-limiter discipline -/

theorem repeatProg_allHttpChecked (body : Prog)
    (hb : ∀ t, guardedFrom t body = (true, true)) :
    ∀ (n : Nat) (t : Bool), (guardedFrom t (repeatProg body n)).1 = true
  | 0, t => rfl
  | n + 1, t => by
    simp only [repeatProg, guardedFrom, hb, Bool.true_and]
    exact repeatProg_allHttpChecked body hb n true

theorem repeatProg_allHttpLimited (body : Prog)
    (hl : allHttpLimited false body = true) :
    ∀ (n : Nat), allHttpLimited false (repeatProg body n) = true
  | 0 => rfl
  | n + 1 => by
    simp only [repeatProg, allHttpLimited, hl, Bool.true_and]
    exact repeatProg_allHttpLimited body hl n

theorem repeatProg_fullyGuarded (body : Prog)
    (hb : ∀ t, guardedFrom t body = (true, true))
    (hl : allHttpLimited false body = true) (n : Nat) :
    fullyGuarded (repeatProg body n) = true := by
  unfold fullyGuarded allHttpChecked
  rw [repeatProg_allHttpChecked body hb n false,
    repeatProg_allHttpLimited body hl n]
  rfl

/-- C1 counterexample: not every operation both token-checks and
rate-limits its requests — `object.update.records` issues its request
with neither an `ensureTokenValid` call nor a `functionLimiter` dispatch. -/
theorem clientOps_not_all_guarded :
    clientOps.all fullyGuarded = false ∧
    updateRecords_prog ∈ clientOps ∧
    fullyGuarded updateRecords_prog = false := by decide

/-- C1 (amended): the single-record operations, `object.delete.records`,
`department.exchange` and every chunk/page of the five multi-call
iterators dispatch through `functionLimiter` with `ensureTokenValid`
before each request; but `object.list`, the two metadata reads,
`object.search.records`, `object.create.records` and `function.invoke`
perform only the token check (their requests bypass the limiter when
called directly), and `object.update.records` performs neither. -/
theorem guard_discipline_by_operation :
    (fullyGuarded searchRecord_prog = true ∧
     fullyGuarded createRecord_prog = true ∧
     fullyGuarded updateRecord_prog = true ∧
     fullyGuarded deleteRecord_prog = true ∧
     fullyGuarded deleteRecords_prog = true ∧
     fullyGuarded departmentExchange_prog = true) ∧
    (∀ n : Nat,
      fullyGuarded (searchIter_prog n) = true ∧
      fullyGuarded (createIter_prog n) = true ∧
      fullyGuarded (updateIter_prog n) = true ∧
      fullyGuarded (deleteIter_prog n) = true ∧
      fullyGuarded (departmentBatchExchange_prog n) = true) ∧
    (allHttpChecked objectList_prog = true ∧
     allHttpLimited false objectList_prog = false ∧
     allHttpChecked metadataField_prog = true ∧
     allHttpLimited false metadataField_prog = false ∧
     allHttpChecked metadataFields_prog = true ∧
     allHttpLimited false metadataFields_prog = false ∧
     allHttpChecked searchRecords_prog = true ∧
     allHttpLimited false searchRecords_prog = false ∧
     allHttpChecked createRecords_prog = true ∧
     allHttpLimited false createRecords_prog = false ∧
     allHttpChecked functionInvoke_prog = true ∧
     allHttpLimited false functionInvoke_prog = false) ∧
    (allHttpChecked updateRecords_prog = false ∧
     allHttpLimited false updateRecords_prog = false) := by
  refine ⟨by decide, fun n => ?_, by decide, by decide⟩
  exact ⟨repeatProg_fullyGuarded searchPage_body
      (fun t => by cases t <;> rfl) rfl (n + 1),
    repeatProg_fullyGuarded (Prog.limited createRecords_prog)
      (fun t => by cases t <;> rfl) rfl n,
    repeatProg_fullyGuarded
      (Prog.limited (Prog.seq Prog.ensure (Prog.http "PATCH records_batch")))
      (fun t => by cases t <;> rfl) rfl n,
    repeatProg_fullyGuarded
      (Prog.limited (Prog.seq Prog.ensure (Prog.http "DELETE records_batch")))
      (fun t => by cases t <;> rfl) rfl n,
    repeatProg_fullyGuarded
      (Prog.limited (Prog.seq Prog.ensure (Prog.http "POST getDepartments")))
      (fun t => by cases t <;> rfl) rfl n⟩
